import Mathlib

/-!
Verification of the nrsr-dochadzka vote collection and processing pipeline.

The Lean definitions below are shallow embeddings of the Python sources under
`scraper/nrsr_attendance/` (`processing.py`, `pipelines.py`,
`spiders/vote_index.py`, `site_data.py`).  Machine integers are modelled as
`Int`/`Nat` (no overflow is possible in the relevant ranges), Python `None` as
`Option.none`, fallible code as `Option`/sum results, and mutable stores as
association lists threaded explicitly.
-/

namespace NrsrDochadzka

/-- The apostrophe character (code point 39), used by the postback regex. -/
def squote : Char := Char.ofNat 39

/-- Python `str.isspace` over the whitespace characters relevant here
(`str.split()` with no argument splits on runs of these). -/
def pyIsSpace (c : Char) : Bool :=
  c = ' ' || c = '\t' || c = '\n' || c = '\r' || c.val = 11 || c.val = 12

/-- Split a character list into the maximal runs of characters satisfying
`keep`, discarding separators.  `splitRuns keep cs []` models both Python
`str.split()` (with `keep = not whitespace`) and the run structure used by
`re.sub("[^a-z0-9]+", "-", s)` in `slugify`. -/
def splitRuns (keep : Char → Bool) : List Char → List Char → List (List Char)
  | [], acc => if acc.isEmpty then [] else [acc.reverse]
  | c :: cs, acc =>
    if keep c then splitRuns keep cs (c :: acc)
    else if acc.isEmpty then splitRuns keep cs []
    else acc.reverse :: splitRuns keep cs []

/-- Python `value.split()` (split on whitespace, dropping empty parts). -/
def pySplitWs (s : String) : List String :=
  (splitRuns (fun c => !(pyIsSpace c)) s.data []).map (fun cs => String.mk cs)

/-- `" ".join(value.split())`: whitespace collapsed to single spaces,
leading/trailing whitespace removed (`processing._normalize_club`). -/
def collapseWs (s : String) : String :=
  String.intercalate (" ") (pySplitWs s)

/-- Python `str.strip()`. -/
def pyStrip (s : String) : String :=
  String.mk (((s.data.dropWhile pyIsSpace).reverse.dropWhile pyIsSpace).reverse)

/-- A Python value as it may appear in the `club` field of a raw member vote:
`None`, a string, or some other (non-string) JSON scalar. -/
inductive PyVal where
  | pynull : PyVal
  | pystr (s : String) : PyVal
  | pyint (n : Int) : PyVal
deriving DecidableEq

/-- `processing._NO_CLUB_RAW`. -/
def NO_CLUB_RAW : String := "Poslanci, ktorí nie sú členmi poslaneckých klubov"

/-- `processing._NO_CLUB_INTERNAL`. -/
def NO_CLUB_INTERNAL : String := "(no_club)"

/-- `processing._UNKNOWN_CLUB_INTERNAL`. -/
def UNKNOWN_CLUB_INTERNAL : String := "(unknown)"

/-- `processing._normalize_club`: non-strings map to the unknown sentinel;
strings are whitespace-collapsed, the empty result maps to the unknown
sentinel, the exact no-club label maps to the no-club sentinel, and anything
else passes through collapsed. -/
def normalizeClub : PyVal → String
  | PyVal.pystr v =>
    let normalized := collapseWs v
    if normalized = "" then UNKNOWN_CLUB_INTERNAL
    else if normalized = NO_CLUB_RAW then NO_CLUB_INTERNAL
    else normalized
  | _ => UNKNOWN_CLUB_INTERNAL

/-- `processing._ABSENT_VOTE_CODES`. -/
def ABSENT_VOTE_CODES : List String := ["0", "N"]

/-- Python `x in {set of strings}` where `x` is a string or `None`
(`None` is never a member of a set of strings). -/
def pyInStrSet (vc : Option String) (s : List String) : Bool :=
  match vc with
  | none => false
  | some c => s.contains c

/-- One entry of a raw record's `mp_votes` list. -/
structure MpVoteRaw where
  mp_id : Option Int
  mp_name : Option String
  club : PyVal
  vote_code : Option String
deriving DecidableEq

/-- One row of the processed member-vote table (`processing.process_votes`,
the `mp_votes.append({...})` loop).  The `vote_datetime_local`/`utc` strings
are carried through unchanged from the vote-level parse. -/
structure MpVoteRow where
  vote_id : Int
  term_id : Option Int
  meeting_nr : Option Int
  vote_number : Option Int
  vote_datetime_local : Option String
  vote_datetime_utc : Option String
  mp_id : Option Int
  mp_name : Option String
  club : String
  vote_code : Option String
  is_present : Bool
  is_voted : Bool
deriving DecidableEq

/-- The body of the member-vote loop in `process_votes` (processing.py
lines 268-287): `is_present = vote_code is not None and vote_code not in
_ABSENT_VOTE_CODES`, `is_voted = vote_code in {"Z", "P", "?"}`. -/
def processMpVote (vote_id : Int) (term_id meeting_nr vote_number : Option Int)
    (dt_local dt_utc : Option String) (mv : MpVoteRaw) : MpVoteRow :=
  let vote_code := mv.vote_code
  let is_present : Bool := vote_code.isSome && !(pyInStrSet vote_code ABSENT_VOTE_CODES)
  let is_voted : Bool := pyInStrSet vote_code (["Z", "P", "?"])
  { vote_id := vote_id
    term_id := term_id
    meeting_nr := meeting_nr
    vote_number := vote_number
    vote_datetime_local := dt_local
    vote_datetime_utc := dt_utc
    mp_id := mv.mp_id
    mp_name := mv.mp_name
    club := normalizeClub mv.club
    vote_code := vote_code
    is_present := is_present
    is_voted := is_voted }

/-- The fields of one raw vote record consumed by the member-vote loop
(`vote_number`, `dt_local`, `dt_utc` are the loop's local variables, already
extracted from the summary upstream of the member loop). -/
structure RawVote where
  vote_id : Int
  term_id : Option Int
  meeting_nr : Option Int
  vote_number : Option Int
  dt_local : Option String
  dt_utc : Option String
  mp_votes : List MpVoteRaw
deriving DecidableEq

/-- The member-vote rows contributed by one raw vote record. -/
def processVoteMpRows (v : RawVote) : List MpVoteRow :=
  v.mp_votes.map
    (processMpVote v.vote_id v.term_id v.meeting_nr v.vote_number v.dt_local v.dt_utc)

/-- The claim's formula for `is_present`: "vote_code not in the absence set",
with no separate treatment of null. -/
def claimIsPresent (vc : Option String) : Bool :=
  !(pyInStrSet vc ABSENT_VOTE_CODES)

/-- A raw member vote whose `vote_code` is null. -/
def c1SampleRaw : MpVoteRaw :=
  { mp_id := some 100, mp_name := some ("A B"), club := PyVal.pynull,
    vote_code := none }

/-- A raw vote with a single member vote whose `vote_code` is null. -/
def c1SampleVote : RawVote :=
  { vote_id := 1
    term_id := some 9
    meeting_nr := some 1
    vote_number := none
    dt_local := none
    dt_utc := none
    mp_votes := [c1SampleRaw] }

/-- The single member-vote row produced from `c1SampleVote`. -/
def c1Row : MpVoteRow :=
  processMpVote 1 (some 9) (some 1) none none none c1SampleRaw

/-- C1 counterexample: for a member vote with `vote_code = null`, the produced
row has `is_present = false`, while the claim's formula `vote_code not in
{"0","N"}` yields `true` (null is not a member of the absence set).  So the
claim fails at null vote codes. -/
theorem c1_counterexample :
    processVoteMpRows c1SampleVote = [c1Row] ∧
    c1Row.is_present = false ∧
    claimIsPresent c1Row.vote_code = true := by decide

/-- C1 (amended): for every member-vote row produced from a raw vote record,
`is_present` equals (`vote_code` is non-null AND `vote_code` not in the
absence set {"0","N"}), and `is_voted` equals (`vote_code` in {"Z","P","?"}),
for every possible `vote_code` value including null. -/
theorem c1_member_vote_flags (v : RawVote) (row : MpVoteRow)
    (h : row ∈ processVoteMpRows v) :
    row.is_present = (row.vote_code.isSome && !(pyInStrSet row.vote_code ABSENT_VOTE_CODES)) ∧
    row.is_voted = pyInStrSet row.vote_code (["Z", "P", "?"]) := by
  rcases List.mem_map.mp h with ⟨mv, _, rfl⟩
  constructor <;> rfl

/-- C1 witness: the amended flag derivation evaluated on a concrete record. -/
theorem c1_member_vote_flags_witness :
    c1Row.is_present =
      (c1Row.vote_code.isSome && !(pyInStrSet c1Row.vote_code ABSENT_VOTE_CODES)) ∧
    c1Row.is_voted = pyInStrSet c1Row.vote_code (["Z", "P", "?"]) :=
  c1_member_vote_flags c1SampleVote c1Row (by decide)

/-- The label from the C8 counterexample: the no-club label with a doubled
space after the comma (a different string from `NO_CLub_RAW`, but equal to it
after whitespace collapsing). -/
def c8BadLabel : String :=
  "Poslanci,  ktorí nie sú členmi poslaneckých klubov"

/-- C8 counterexample: `c8BadLabel` is not the exact no-club label and is
non-empty after collapsing, so by the claim it should pass through
whitespace-collapsed; but `_normalize_club` compares against the no-club label
after collapsing, and maps it to "(no_club)" instead.  -/
theorem c8_counterexample :
    c8BadLabel ≠ NO_CLUB_RAW ∧
    collapseWs c8BadLabel ≠ "" ∧
    normalizeClub (PyVal.pystr c8BadLabel) = NO_CLUB_INTERNAL ∧
    normalizeClub (PyVal.pystr c8BadLabel) ≠ collapseWs c8BadLabel := by decide

/-- C8 (amended): club normalization maps every string whose
whitespace-collapsed form equals the label "Poslanci, ktorí nie sú členmi
poslaneckých klubov" (in particular the exact label itself) to "(no_club)",
maps every non-string value and every string that is empty after whitespace
collapsing to "(unknown)", and passes every other label through with
whitespace collapsed to single spaces. -/
theorem c8_club_normalization :
    normalizeClub (PyVal.pystr NO_CLUB_RAW) = NO_CLUB_INTERNAL ∧
    (∀ v : String, collapseWs v = NO_CLUB_RAW →
      normalizeClub (PyVal.pystr v) = NO_CLUB_INTERNAL) ∧
    (∀ v : String, collapseWs v = "" →
      normalizeClub (PyVal.pystr v) = UNKNOWN_CLUB_INTERNAL) ∧
    normalizeClub PyVal.pynull = UNKNOWN_CLUB_INTERNAL ∧
    (∀ n : Int, normalizeClub (PyVal.pyint n) = UNKNOWN_CLUB_INTERNAL) ∧
    (∀ v : String, collapseWs v ≠ "" → collapseWs v ≠ NO_CLUB_RAW →
      normalizeClub (PyVal.pystr v) = collapseWs v) := by
  refine ⟨by decide, ?_, ?_, rfl, fun n => rfl, ?_⟩
  · intro v hv
    have hne : NO_CLUB_RAW ≠ "" := by decide
    simp only [normalizeClub, hv, if_neg hne, if_true, eq_self_iff_true]
  · intro v hv
    simp only [normalizeClub, hv, if_true, eq_self_iff_true]
  · intro v h1 h2
    simp only [normalizeClub, if_neg h1, if_neg h2]

/-- C8 witness: the amended normalization evaluated at concrete labels. -/
theorem c8_club_normalization_witness :
    normalizeClub (PyVal.pystr ("  Klub   SMER ")) = "Klub SMER" :=
  c8_club_normalization.2.2.2.2.2 ("  Klub   SMER ") (by decide) (by decide)

/-! ### Attendance aggregates (`process_votes`, lines 311-381) -/

/-- Polars `.round(6)` on `present_count / total_votes`, modelled on exact
rationals: round to 6 decimal places. -/
def roundTo6 (q : Rat) : Rat := ((round (q * 1000000) : Int) : Rat) / 1000000

/-- Ascending order on a nullable integer column (polars sorts nulls first). -/
def optIntLe : Option Int → Option Int → Bool
  | none, _ => true
  | some _, none => false
  | some a, some b => decide (a ≤ b)

/-- The member-level grouping key `(term_id, mp_id, mp_name)`. -/
def mpKey (r : MpVoteRow) : Option Int × Option Int × Option String :=
  (r.term_id, r.mp_id, r.mp_name)

/-- One row of `mp_attendance.jsonl`. -/
structure MpAttRow where
  term_id : Option Int
  mp_id : Option Int
  mp_name : Option String
  total_votes : Nat
  present_count : Nat
  voted_count : Nat
  absent_count : Nat
  not_voting_count : Nat
  abstain_count : Nat
  for_count : Nat
  against_count : Nat
  participation_rate : Rat
deriving DecidableEq

/-- The aggregate row for one `(term_id, mp_id, mp_name)` group: the `agg` and
`with_columns` expressions of `mp_summary`.  Polars `(col == "N")` is null on a
null `vote_code`, and summing the `Int8` cast skips nulls, so each count is the
number of rows whose code equals the literal. -/
def mpAggRow (rows : List MpVoteRow) (k : Option Int × Option Int × Option String) :
    MpAttRow :=
  let g := rows.filter (fun r => decide (mpKey r = k))
  let total := g.length
  let present := (g.filter (fun r => r.is_present)).length
  { term_id := k.1
    mp_id := k.2.1
    mp_name := k.2.2
    total_votes := total
    present_count := present
    voted_count := (g.filter (fun r => r.is_voted)).length
    absent_count := (g.filter (fun r => pyInStrSet r.vote_code (["0", "N"]))).length
    not_voting_count := (g.filter (fun r => decide (r.vote_code = some ("N")))).length
    abstain_count := (g.filter (fun r => decide (r.vote_code = some ("?")))).length
    for_count := (g.filter (fun r => decide (r.vote_code = some ("Z")))).length
    against_count := (g.filter (fun r => decide (r.vote_code = some ("P")))).length
    participation_rate := roundTo6 ((present : Rat) / (total : Rat)) }

/-- The `mp_summary` sort key `["term_id", "participation_rate", "mp_id"]`. -/
def mpAttLe (a b : MpAttRow) : Bool :=
  if a.term_id = b.term_id then
    if a.participation_rate = b.participation_rate then optIntLe a.mp_id b.mp_id
    else decide (a.participation_rate ≤ b.participation_rate)
  else optIntLe a.term_id b.term_id

/-- `mp_summary`: group the member-vote rows by `(term_id, mp_id, mp_name)`,
aggregate, and sort by `(term_id, participation_rate, mp_id)`. -/
def mpAttendance (rows : List MpVoteRow) : List MpAttRow :=
  List.insertionSort (fun a b => mpAttLe a b = true)
    (((rows.map mpKey).dedup).map (mpAggRow rows))

/-- The club-level grouping key `(term_id, club)`. -/
def clubKey (r : MpVoteRow) : Option Int × String :=
  (r.term_id, r.club)

/-- One row of `club_attendance.jsonl`. -/
structure ClubAttRow where
  term_id : Option Int
  club : String
  total_votes : Nat
  absent_count : Nat
  present_count : Nat
  participation_rate : Rat
deriving DecidableEq

/-- The aggregate row for one `(term_id, club)` group: club-level attendance
counts both "0" and "N" as absent, and `present_count = total_votes -
absent_count`. -/
def clubAggRow (rows : List MpVoteRow) (k : Option Int × String) : ClubAttRow :=
  let g := rows.filter (fun r => decide (clubKey r = k))
  let total := g.length
  let absent := (g.filter (fun r => pyInStrSet r.vote_code (["0", "N"]))).length
  let present := total - absent
  { term_id := k.1
    club := k.2
    total_votes := total
    absent_count := absent
    present_count := present
    participation_rate := roundTo6 ((present : Rat) / (total : Rat)) }

/-- The `club_summary` sort key `["term_id", "participation_rate", "club"]`. -/
def clubAttLe (a b : ClubAttRow) : Bool :=
  if a.term_id = b.term_id then
    if a.participation_rate = b.participation_rate then decide (a.club ≤ b.club)
    else decide (a.participation_rate ≤ b.participation_rate)
  else optIntLe a.term_id b.term_id

/-- `club_summary`: group the member-vote rows by `(term_id, club)`,
aggregate, and sort by `(term_id, participation_rate, club)`. -/
def clubAttendance (rows : List MpVoteRow) : List ClubAttRow :=
  List.insertionSort (fun a b => clubAttLe a b = true)
    (((rows.map clubKey).dedup).map (clubAggRow rows))

/-- Column names of `mp_attendance.jsonl` as produced by the aggregation
branch (group keys, then aggregates, then the added rate column). -/
def mpAttendanceAggColumns : List String :=
  ["term_id", "mp_id", "mp_name", "total_votes", "present_count", "voted_count",
   "absent_count", "not_voting_count", "abstain_count", "for_count",
   "against_count", "participation_rate"]

/-- Column names of the zero-row `mp_attendance.jsonl` literal written when no
member-vote rows exist (processing.py lines 350-368). -/
def mpAttendanceEmptyColumns : List String :=
  ["term_id", "mp_id", "mp_name", "total_votes", "present_count", "voted_count",
   "absent_count", "not_voting_count", "abstain_count", "for_count",
   "against_count", "participation_rate"]

/-- Column names of `club_attendance.jsonl` as produced by the aggregation
branch. -/
def clubAttendanceAggColumns : List String :=
  ["term_id", "club", "total_votes", "absent_count", "present_count",
   "participation_rate"]

/-- Column names of the zero-row `club_attendance.jsonl` literal written when
no member-vote rows exist (processing.py lines 369-381). -/
def clubAttendanceEmptyColumns : List String :=
  ["term_id", "club", "total_votes", "absent_count", "present_count",
   "participation_rate"]

/-- C2: in every attendance aggregate row (member-level and club-level),
`total_votes` is positive (a group exists only for keys that occur, so the
`total_votes == 0` case never yields a row and the "participation_rate absent
or null" branch is vacuous) and `participation_rate` equals
`present_count / total_votes` rounded to 6 decimal places; when no member-vote
rows exist, both aggregates are zero-row tables whose column set equals the
aggregation branch's column set. -/
theorem c2_attendance_aggregates (rows : List MpVoteRow) :
    (∀ row ∈ mpAttendance rows, 0 < row.total_votes ∧
        row.participation_rate =
          roundTo6 ((row.present_count : Rat) / (row.total_votes : Rat))) ∧
    (∀ row ∈ clubAttendance rows, 0 < row.total_votes ∧
        row.participation_rate =
          roundTo6 ((row.present_count : Rat) / (row.total_votes : Rat))) ∧
    mpAttendance ([] : List MpVoteRow) = [] ∧
    clubAttendance ([] : List MpVoteRow) = [] ∧
    mpAttendanceEmptyColumns = mpAttendanceAggColumns ∧
    clubAttendanceEmptyColumns = clubAttendanceAggColumns := by
  refine ⟨?_, ?_, rfl, rfl, rfl, rfl⟩
  · intro row hrow
    rw [mpAttendance, (List.perm_insertionSort _ _).mem_iff] at hrow
    rcases List.mem_map.mp hrow with ⟨k, hk, rfl⟩
    rcases List.mem_map.mp (List.mem_dedup.mp hk) with ⟨r, hr, hkey⟩
    have hmem : r ∈ rows.filter (fun r => decide (mpKey r = k)) :=
      List.mem_filter.mpr ⟨hr, by simp [hkey]⟩
    exact ⟨List.length_pos_of_mem hmem, rfl⟩
  · intro row hrow
    rw [clubAttendance, (List.perm_insertionSort _ _).mem_iff] at hrow
    rcases List.mem_map.mp hrow with ⟨k, hk, rfl⟩
    rcases List.mem_map.mp (List.mem_dedup.mp hk) with ⟨r, hr, hkey⟩
    have hmem : r ∈ rows.filter (fun r => decide (clubKey r = k)) :=
      List.mem_filter.mpr ⟨hr, by simp [hkey]⟩
    exact ⟨List.length_pos_of_mem hmem, rfl⟩

/-- A concrete member-vote row used to witness the aggregate properties. -/
def c2SampleRow : MpVoteRow :=
  { vote_id := 1
    term_id := some 9
    meeting_nr := some 1
    vote_number := none
    vote_datetime_local := none
    vote_datetime_utc := none
    mp_id := some 5
    mp_name := some ("X Y")
    club := "(unknown)"
    vote_code := some ("Z")
    is_present := true
    is_voted := true }

/-- C2 witness: the aggregate properties evaluated on a one-row input. -/
theorem c2_attendance_aggregates_witness :
    0 < (mpAggRow [c2SampleRow] (mpKey c2SampleRow)).total_votes ∧
    (mpAggRow [c2SampleRow] (mpKey c2SampleRow)).participation_rate =
      roundTo6 (((mpAggRow [c2SampleRow] (mpKey c2SampleRow)).present_count : Rat) /
        ((mpAggRow [c2SampleRow] (mpKey c2SampleRow)).total_votes : Rat)) :=
  (c2_attendance_aggregates [c2SampleRow]).1
    (mpAggRow [c2SampleRow] (mpKey c2SampleRow)) (List.mem_singleton_self _)

/-! ### Raw JSON pipeline and collection state (`pipelines.py`) -/

/-- A `vote_id` field value: the scraper yields ints, but strings can appear. -/
inductive VoteIdVal where
  | int (n : Int) : VoteIdVal
  | str (s : String) : VoteIdVal
deriving DecidableEq

/-- The fields of a scraped item consulted by `RawJsonPipeline.process_item`.
The record's remaining payload does not influence control flow; a stored item
stands for its serialized JSON (serialization is deterministic, so equal items
mean byte-identical files). -/
structure RawItem where
  kind : Option String
  vote_id : Option VoteIdVal
  force_overwrite : Bool
deriving DecidableEq

/-- Python `str(item.get("vote_id") or "")`: falsy values (`None`, `0`, `""`)
become the empty string, otherwise the value's string form. -/
def pyStrOrEmpty : Option VoteIdVal → String
  | none => ""
  | some (VoteIdVal.int n) => if n = 0 then "" else toString n
  | some (VoteIdVal.str s) => s

/-- `_VOTE_ID_RE.match(vote_id)` with `_VOTE_ID_RE = re.compile(r"^[0-9]+$")`.
In Python's `re`, `$` matches at the end of the string and also just before a
single trailing newline, so the regex accepts a nonempty ASCII-digit string
optionally followed by one trailing newline. -/
def isValidVoteId (s : String) : Bool :=
  let core := if s.data.getLast? = some '\n' then s.data.dropLast else s.data
  !(core.isEmpty) && core.all (fun c => c.isDigit)

/-- Decimal value of an all-digits character string. -/
def digitsToNat (s : String) : Nat :=
  s.data.foldl (fun acc c => acc * 10 + (c.toNat - ('0').toNat)) 0

/-- `int(vote_id)` on a string accepted by the validation regex: `int()`
strips surrounding whitespace (including a trailing newline) before reading
the digits. -/
def voteIdInt (s : String) : Nat :=
  digitsToNat (pyStrip s)

/-- The raw vote file store: vote-id string (the file name stem) to stored
record. -/
abbrev RawStore := List (String × RawItem)

/-- The record stored for a vote id, if its file exists. -/
def storeGet (st : RawStore) (k : String) : Option RawItem :=
  (st.find? (fun p => decide (p.1 = k))).map (fun p => p.2)

/-- Atomic overwrite of the file for vote id `k` with record `v`. -/
def storeSet (st : RawStore) (k : String) (v : RawItem) : RawStore :=
  (k, v) :: st.filter (fun p => decide (p.1 ≠ k))

/-- Result of `process_item`: a new store/max state, or a raised
`ValueError`. -/
inductive ItemResult where
  | ok (store : RawStore) (maxVoteId : Option Nat) : ItemResult
  | err (msg : String) : ItemResult
deriving DecidableEq

/-- `max(self._max_vote_id, vote_id_int)` with a `None` initial value. -/
def updatedMax (maxVoteId : Option Nat) (v : Nat) : Nat :=
  match maxVoteId with
  | none => v
  | some m => max m v

/-- `RawJsonPipeline.process_item`: ignore non-vote items; raise on a vote id
failing the all-digits validation (before the max-id update); update the
in-memory max id; skip the write when the file exists and no forced overwrite
was requested, else write the serialized item. -/
def processItem (store : RawStore) (maxVoteId : Option Nat) (item : RawItem) :
    ItemResult :=
  if item.kind ≠ some ("vote") then ItemResult.ok store maxVoteId
  else
    let vid := pyStrOrEmpty item.vote_id
    if isValidVoteId vid = false then
      ItemResult.err ("Invalid vote_id: " ++ String.mk [squote] ++ vid ++ String.mk [squote])
    else
      let newMax := some (updatedMax maxVoteId (voteIdInt vid))
      if (storeGet store vid).isSome && !item.force_overwrite then
        ItemResult.ok store newMax
      else
        ItemResult.ok (storeSet store vid item) newMax

/-- One engine step: Scrapy logs a pipeline exception and continues with the
previous state (the item is dropped). -/
def runStep (s : RawStore × Option Nat) (item : RawItem) : RawStore × Option Nat :=
  match processItem s.1 s.2 item with
  | ItemResult.ok st m => (st, m)
  | ItemResult.err _ => s

/-- Processing a whole batch of items through the pipeline. -/
def runBatch (items : List RawItem) (s : RawStore × Option Nat) :
    RawStore × Option Nat :=
  items.foldl runStep s

/-- The persisted `votes` block of `_state.json`
(`last_seen_id`, read with a default of 0, and `updated_at_utc`). -/
structure CollectionState where
  last_seen_id : Nat
  updated_at_utc : String
deriving DecidableEq

/-- `RawJsonPipeline._on_spider_closed`: write the state only when the close
reason is "finished" and some vote item was processed; bump `last_seen_id`
only if the batch maximum exceeds it.  `none` means the state file is left
unchanged. -/
def onSpiderClosed (reason : String) (maxVoteId : Option Nat)
    (st : CollectionState) (now : String) : Option CollectionState :=
  if reason ≠ "finished" then none
  else
    match maxVoteId with
    | none => none
    | some m =>
      let last := st.last_seen_id
      some { last_seen_id := if m > last then m else last, updated_at_utc := now }

/-- The valid vote ids of a batch, in order: the ids that pass the kind check
and the all-digits validation. -/
def validVoteIdsOf (items : List RawItem) : List Nat :=
  items.filterMap (fun item =>
    if decide (item.kind = some ("vote")) && isValidVoteId (pyStrOrEmpty item.vote_id) then
      some (voteIdInt (pyStrOrEmpty item.vote_id))
    else none)

/-- Maximum of a list of naturals (`none` on the empty list). -/
def maxNatList : List Nat → Option Nat
  | [] => none
  | n :: ns => some (match maxNatList ns with | none => n | some m => max n m)

/-- Maximum of two optional naturals. -/
def optMax : Option Nat → Option Nat → Option Nat
  | none, b => b
  | some a, none => some a
  | some a, some b => some (max a b)

theorem optMax_none_right (a : Option Nat) : optMax a none = a := by
  cases a <;> rfl

theorem optMax_assoc (a b c : Option Nat) :
    optMax (optMax a b) c = optMax a (optMax b c) := by
  cases a <;> cases b <;> cases c <;> simp [optMax, Nat.max_assoc]

theorem maxNatList_cons (n : Nat) (ns : List Nat) :
    maxNatList (n :: ns) = optMax (some n) (maxNatList ns) := by
  cases h : maxNatList ns <;> simp [maxNatList, optMax, h]

theorem updatedMax_eq_optMax (acc : Option Nat) (v : Nat) :
    some (updatedMax acc v) = optMax acc (some v) := by
  cases acc <;> rfl

/-- The in-memory max after a batch is the max of the prior value and all the
batch's valid vote ids. -/
theorem runBatch_snd (items : List RawItem) :
    ∀ s : RawStore × Option Nat,
      (runBatch items s).2 = optMax s.2 (maxNatList (validVoteIdsOf items)) := by
  induction items with
  | nil => intro s; simp [runBatch, validVoteIdsOf, maxNatList, optMax_none_right]
  | cons item rest ih =>
    intro s
    by_cases hk : item.kind = some ("vote")
    · by_cases hv : isValidVoteId (pyStrOrEmpty item.vote_id) = true
      · have hstep : (runStep s item).2 =
            some (updatedMax s.2 (voteIdInt (pyStrOrEmpty item.vote_id))) := by
          by_cases hc : ((storeGet s.1 (pyStrOrEmpty item.vote_id)).isSome &&
              !item.force_overwrite) = true
          · simp [runStep, processItem, hk, hv, hc]
          · simp [runStep, processItem, hk, hv, hc]
        have hids : validVoteIdsOf (item :: rest) =
            voteIdInt (pyStrOrEmpty item.vote_id) :: validVoteIdsOf rest := by
          simp [validVoteIdsOf, hk, hv]
        have hrun : runBatch (item :: rest) s = runBatch rest (runStep s item) := rfl
        rw [hrun, ih, hstep, hids, maxNatList_cons, updatedMax_eq_optMax, optMax_assoc]
      · have hstep : runStep s item = s := by
          simp only [runStep, processItem, hk]
          simp_all
        have hids : validVoteIdsOf (item :: rest) = validVoteIdsOf rest := by
          simp [validVoteIdsOf, hk, hv]
        have hrun : runBatch (item :: rest) s = runBatch rest (runStep s item) := rfl
        rw [hrun, hstep, ih, hids]
    · have hstep : runStep s item = s := by
        simp [runStep, processItem, hk]
      have hids : validVoteIdsOf (item :: rest) = validVoteIdsOf rest := by
        simp [validVoteIdsOf, hk]
      have hrun : runBatch (item :: rest) s = runBatch rest (runStep s item) := rfl
      rw [hrun, hstep, ih, hids]

/-- The state never moves backwards, whether or not a write happens. -/
theorem onSpiderClosed_last_le (reason : String) (maxVoteId : Option Nat)
    (st : CollectionState) (now : String) :
    st.last_seen_id ≤ ((onSpiderClosed reason maxVoteId st now).getD st).last_seen_id := by
  by_cases hr : reason ≠ "finished"
  · simp [onSpiderClosed, hr]
  · cases maxVoteId with
    | none => simp [onSpiderClosed, hr]
    | some m =>
      simp only [onSpiderClosed, hr, if_false, Option.getD_some]
      split <;> omega

/-- C3: the persisted state is written only when the run closes with reason
"finished" and at least one vote item was processed (the batch max is
non-null); on a write, `last_seen_id` becomes the max of its previous value
and the largest valid vote id of the batch, so it never decreases; any other
close reason leaves the state unchanged. -/
theorem c3_collection_state (reason now : String) (st : CollectionState)
    (items : List RawItem) (store : RawStore) :
    ((reason ≠ "finished" ∨ (runBatch items (store, none)).2 = none) →
      onSpiderClosed reason ((runBatch items (store, none)).2) st now = none) ∧
    (∀ m, reason = "finished" → (runBatch items (store, none)).2 = some m →
      onSpiderClosed reason ((runBatch items (store, none)).2) st now =
        some { last_seen_id := max st.last_seen_id m, updated_at_utc := now }) ∧
    st.last_seen_id ≤
      ((onSpiderClosed reason ((runBatch items (store, none)).2) st now).getD st).last_seen_id ∧
    (runBatch items (store, none)).2 = maxNatList (validVoteIdsOf items) := by
  refine ⟨?_, ?_, onSpiderClosed_last_le _ _ _ _, ?_⟩
  · rintro (hr | hnone)
    · simp [onSpiderClosed, hr]
    · rw [hnone]
      by_cases hr : reason ≠ "finished" <;> simp [onSpiderClosed, hr]
  · intro m hr hm
    rw [hm]
    subst hr
    have hmax : (if m > st.last_seen_id then m else st.last_seen_id) =
        max st.last_seen_id m := by
      split <;> omega
    simp [onSpiderClosed, hmax]
  · rw [runBatch_snd items (store, none)]
    rfl

/-- Batch items used by the C3 witness: two valid vote items with ids 5, 7. -/
def c3Items : List RawItem :=
  [{ kind := some ("vote"), vote_id := some (VoteIdVal.str ("5")), force_overwrite := false },
   { kind := some ("vote"), vote_id := some (VoteIdVal.str ("7")), force_overwrite := false }]

/-- C3 witness: a finished run over vote ids 5 and 7, starting from
`last_seen_id = 3`, writes `last_seen_id = max 3 7`. -/
theorem c3_collection_state_witness :
    onSpiderClosed ("finished") ((runBatch c3Items ([], none)).2)
        { last_seen_id := 3, updated_at_utc := "t0" } ("t1") =
      some { last_seen_id := max 3 7, updated_at_utc := "t1" } :=
  (c3_collection_state ("finished") ("t1")
      { last_seen_id := 3, updated_at_utc := "t0" } c3Items []).2.1 7 rfl (by decide)

/-- C4: for a vote item with a valid id, if the raw file already exists and no
forced overwrite is requested, `process_item` returns with the store unchanged
(the existing file is byte-identical); if the forced-overwrite flag is set,
the file is replaced with the new record's serialization. -/
theorem c4_raw_store_idempotent (store : RawStore) (maxId : Option Nat)
    (item : RawItem) (hkind : item.kind = some ("vote"))
    (hvalid : isValidVoteId (pyStrOrEmpty item.vote_id) = true) :
    ((storeGet store (pyStrOrEmpty item.vote_id)).isSome = true →
      item.force_overwrite = false →
      processItem store maxId item =
        ItemResult.ok store
          (some (updatedMax maxId (voteIdInt (pyStrOrEmpty item.vote_id))))) ∧
    (item.force_overwrite = true →
      processItem store maxId item =
        ItemResult.ok (storeSet store (pyStrOrEmpty item.vote_id) item)
          (some (updatedMax maxId (voteIdInt (pyStrOrEmpty item.vote_id)))) ∧
      storeGet (storeSet store (pyStrOrEmpty item.vote_id) item)
          (pyStrOrEmpty item.vote_id) = some item) := by
  constructor
  · intro hex hforce
    simp [processItem, hkind, hvalid, hex, hforce]
  · intro hforce
    constructor
    · simp [processItem, hkind, hvalid, hforce]
    · simp [storeGet, storeSet, List.find?]

/-- Raw item used by the C4 witness. -/
def c4SampleItem : RawItem :=
  { kind := some ("vote"), vote_id := some (VoteIdVal.str ("123")),
    force_overwrite := false }

/-- C4 witness: with the file for id 123 already present and no force flag,
the store is returned unchanged. -/
theorem c4_raw_store_idempotent_witness :
    processItem [(("123"), c4SampleItem)] none c4SampleItem =
      ItemResult.ok [(("123"), c4SampleItem)]
        (some (updatedMax none (voteIdInt ("123")))) :=
  (c4_raw_store_idempotent [(("123"), c4SampleItem)] none c4SampleItem rfl
    (by decide)).1 (by decide) rfl

/-- A vote item whose id is an all-digits string with a single trailing
newline: such an id is not a strict all-digits string. -/
def c5NewlineItem : RawItem :=
  { kind := some ("vote"), vote_id := some (VoteIdVal.str ("123\n")),
    force_overwrite := false }

/-- C5 counterexample: the id "123\n" does not match a strict all-digits
string, yet `process_item` does not raise: Python's `$` in `^[0-9]+$` also
matches before a single trailing newline, so the record passes validation,
the in-memory maximum vote id is updated to `int("123\n") = 123`, and the raw
file is written (under the newline-bearing name). -/
theorem c5_counterexample :
    (("123\n" : String).data.all (fun c => c.isDigit)) = false ∧
    processItem [] none c5NewlineItem =
      ItemResult.ok (storeSet [] ("123\n") c5NewlineItem) (some 123) := by decide

/-- C5 (amended): for every item of kind "vote" whose vote_id fails the
validation regex `^[0-9]+$` — which Python's `re` accepts for an all-digits
string optionally followed by one trailing newline — `process_item` raises an
error (it does not skip), and neither the store nor the in-memory maximum
vote id changes, so a record failing validation never influences the
persisted high-water mark. -/
theorem c5_invalid_vote_id (store : RawStore) (maxId : Option Nat)
    (item : RawItem) (hkind : item.kind = some ("vote"))
    (hinvalid : isValidVoteId (pyStrOrEmpty item.vote_id) = false) :
    processItem store maxId item =
      ItemResult.err ("Invalid vote_id: " ++ String.mk [squote] ++
        pyStrOrEmpty item.vote_id ++ String.mk [squote]) ∧
    runStep (store, maxId) item = (store, maxId) := by
  have herr : processItem store maxId item =
      ItemResult.err ("Invalid vote_id: " ++ String.mk [squote] ++
        pyStrOrEmpty item.vote_id ++ String.mk [squote]) := by
    simp [processItem, hkind, hinvalid]
  exact ⟨herr, by simp [runStep, herr]⟩

/-- Raw item used by the C5 witness: a malformed (non-digit) vote id. -/
def c5SampleItem : RawItem :=
  { kind := some ("vote"), vote_id := some (VoteIdVal.str ("12a34")),
    force_overwrite := false }

/-- C5 witness: the malformed id raises and leaves the state untouched. -/
theorem c5_invalid_vote_id_witness :
    processItem [] none c5SampleItem =
      ItemResult.err ("Invalid vote_id: " ++ String.mk [squote] ++
        pyStrOrEmpty c5SampleItem.vote_id ++ String.mk [squote]) ∧
    runStep ([], none) c5SampleItem = ([], none) :=
  c5_invalid_vote_id [] none c5SampleItem rfl (by decide)

/-! ### Vote index shards (`VoteIndexJsonlPipeline`) -/

/-- Modelled from the spec: the `VoteIndexJsonlPipeline` class (named in
`VoteIndexSpider.custom_settings` and exercised by
`test_vote_index_pipeline_writes_sorted_deduped_shard`) is not among the
sources.  Per the spec, result rows are deduplicated per (term, meeting) shard
by `vote_id`, the last-seen record wins on duplicates, and the shard file is
written sorted ascending by `vote_id`.  One shard is modelled; `title` stands
for the record's remaining fields. -/
structure IndexEntry where
  vote_id : Nat
  title : String
deriving DecidableEq

/-- Ingest one record into the shard's accumulated rows: any previous record
with the same `vote_id` is dropped and the new record appended (last wins). -/
def ingestEntry (shard : List IndexEntry) (e : IndexEntry) : List IndexEntry :=
  shard.filter (fun x => decide (x.vote_id ≠ e.vote_id)) ++ [e]

/-- Ingest a whole run's records for one (term, meeting) shard. -/
def ingestAll (items : List IndexEntry) : List IndexEntry :=
  items.foldl ingestEntry []

/-- The shard file's lines: the deduplicated records sorted ascending by
`vote_id`. -/
def shardLines (items : List IndexEntry) : List IndexEntry :=
  List.insertionSort (fun a b => a.vote_id ≤ b.vote_id) (ingestAll items)

/-- The last record ingested for a given `vote_id`, if any. -/
def lastRecordFor (items : List IndexEntry) (id : Nat) : Option IndexEntry :=
  items.reverse.find? (fun e => decide (e.vote_id = id))

instance : IsTotal IndexEntry (fun a b => a.vote_id ≤ b.vote_id) :=
  ⟨fun a b => Nat.le_total a.vote_id b.vote_id⟩

instance : IsTrans IndexEntry (fun a b => a.vote_id ≤ b.vote_id) :=
  ⟨fun _ _ _ => Nat.le_trans⟩

theorem lastRecordFor_cons (i : IndexEntry) (items : List IndexEntry) (id : Nat) :
    lastRecordFor (i :: items) id =
      match lastRecordFor items id with
      | some x => some x
      | none => if i.vote_id = id then some i else none := by
  simp only [lastRecordFor, List.reverse_cons, List.find?_append]
  cases h : (items.reverse.find? (fun e => decide (e.vote_id = id))) with
  | none =>
    simp only [Option.none_orElse, List.find?]
    by_cases hid : i.vote_id = id <;> simp [hid]
  | some x => simp

theorem mem_ingestEntry (s : List IndexEntry) (i e : IndexEntry) :
    e ∈ ingestEntry s i ↔ (e ∈ s ∧ e.vote_id ≠ i.vote_id) ∨ e = i := by
  simp [ingestEntry, List.mem_filter, List.mem_append]

/-- Fold invariant: an entry is in the accumulated shard iff it is the last
record ingested for its id, or its id was never ingested and it was already in
the accumulator. -/
theorem mem_foldl_ingest (items : List IndexEntry) :
    ∀ (s : List IndexEntry) (e : IndexEntry),
      e ∈ items.foldl ingestEntry s ↔
        (lastRecordFor items e.vote_id = some e ∨
          (lastRecordFor items e.vote_id = none ∧ e ∈ s)) := by
  induction items with
  | nil =>
    intro s e
    simp [lastRecordFor]
  | cons i items ih =>
    intro s e
    rw [List.foldl_cons, ih, lastRecordFor_cons]
    cases h : lastRecordFor items e.vote_id with
    | some x => simp
    | none =>
      by_cases hid : i.vote_id = e.vote_id
      · simp only [mem_ingestEntry, hid, if_pos rfl]
        aesop
      · simp only [mem_ingestEntry, if_neg hid]
        aesop

/-- Ingestion keeps at most one record per `vote_id`. -/
theorem nodup_keys_foldl_ingest (items : List IndexEntry) :
    ∀ s : List IndexEntry, ((s.map (fun e => e.vote_id)).Nodup) →
      (((items.foldl ingestEntry s).map (fun e => e.vote_id)).Nodup) := by
  induction items with
  | nil => intro s hs; exact hs
  | cons i items ih =>
    intro s hs
    rw [List.foldl_cons]
    refine ih _ ?_
    simp only [ingestEntry, List.map_append, List.map_cons, List.map_nil]
    rw [List.nodup_append]
    refine ⟨List.Nodup.sublist (List.Sublist.map _ (List.filter_sublist s)) hs, ?_, ?_⟩
    · exact List.nodup_singleton _
    · intro a ha hb
      rcases List.mem_map.mp ha with ⟨x, hx, rfl⟩
      rcases List.mem_filter.mp hx with ⟨_, hxid⟩
      simp only [List.mem_singleton] at hb
      exact (of_decide_eq_true hxid) (hb ▸ rfl)

/-- The three-item scenario from the claim. -/
def c6Items : List IndexEntry :=
  [{ vote_id := 2, title := "two" },
   { vote_id := 1, title := "one" },
   { vote_id := 2, title := "two-updated" }]

/-- C6: for every sequence of vote-index items ingested into one
(term, meeting) shard in one run, the written shard is sorted ascending by
`vote_id`, contains exactly one line per distinct `vote_id`, and the record
kept for each id is the last one ingested; in particular the 2, 1, 2-updated
scenario yields a shard [1, 2] with vote 2's latest fields. -/
theorem c6_index_shard :
    (∀ items : List IndexEntry,
      List.Pairwise (fun a b => a.vote_id ≤ b.vote_id) (shardLines items)) ∧
    (∀ items : List IndexEntry,
      ((shardLines items).map (fun e => e.vote_id)).Nodup) ∧
    (∀ items : List IndexEntry, ∀ e : IndexEntry,
      e ∈ shardLines items ↔ lastRecordFor items e.vote_id = some e) ∧
    shardLines c6Items =
      [{ vote_id := 1, title := "one" }, { vote_id := 2, title := "two-updated" }] := by
  refine ⟨?_, ?_, ?_, by decide⟩
  · intro items
    exact List.sorted_insertionSort _ _
  · intro items
    have hperm := (List.perm_insertionSort
      (fun a b : IndexEntry => a.vote_id ≤ b.vote_id) (ingestAll items)).map
      (fun e => e.vote_id)
    exact hperm.nodup_iff.mpr (nodup_keys_foldl_ingest items [] (by simp))
  · intro items e
    rw [shardLines, (List.perm_insertionSort _ _).mem_iff, ingestAll,
      mem_foldl_ingest items [] e]
    simp

/-! ### Backfill pagination (`spiders/vote_index.py`) -/

/-- The literal prefix of the postback pattern
`__doPostBack('(?P<target>[^']+)','(?P<arg>[^']+)')`. -/
def postbackPat : List Char := ("__doPostBack(" ++ String.mk [squote]).data

/-- Consume characters up to the first apostrophe; `none` if there is none.
The consumed content (possibly empty) and the remainder after the quote are
returned. -/
def takeBeforeQuote : List Char → Option (List Char × List Char)
  | [] => none
  | c :: cs =>
    if c = squote then some ([], cs)
    else
      match takeBeforeQuote cs with
      | none => none
      | some (pre, rest) => some (c :: pre, rest)

/-- Try to match the full postback pattern at this position, returning the
`arg` group. -/
def tryPostbackMatch (cs : List Char) : Option String :=
  if postbackPat.isPrefixOf cs then
    match takeBeforeQuote (cs.drop postbackPat.length) with
    | none => none
    | some (target, rest) =>
      if target.isEmpty then none
      else
        match rest with
        | ',' :: c2 :: rest2 =>
          if c2 = squote then
            match takeBeforeQuote rest2 with
            | none => none
            | some (arg, rest3) =>
              if arg.isEmpty then none
              else
                match rest3 with
                | ')' :: _ => some (String.mk arg)
                | _ => none
          else none
        | _ => none
  else none

/-- `re.search`: the pattern may match starting at any position; the first
matching position wins. -/
def postbackScan : List Char → Option String
  | [] => none
  | c :: cs =>
    match tryPostbackMatch (c :: cs) with
    | some arg => some arg
    | none => postbackScan cs

/-- `vote_index._postback_arg`: `None` href yields `None`, otherwise the `arg`
group of the first postback match. -/
def postbackArg (href : Option String) : Option String :=
  match href with
  | none => none
  | some h => postbackScan h.data

/-- Python `int(string)` for a stripped string: optional sign then decimal
digits. -/
def pyInt (s : String) : Option Int :=
  match s.data with
  | [] => none
  | '-' :: ds =>
    if !(ds.isEmpty) && ds.all (fun c => c.isDigit) then
      some (-(digitsToNat (String.mk ds) : Int))
    else none
  | '+' :: ds =>
    if !(ds.isEmpty) && ds.all (fun c => c.isDigit) then
      some ((digitsToNat (String.mk ds) : Int))
    else none
  | ds =>
    if ds.all (fun c => c.isDigit) then some ((digitsToNat (String.mk ds) : Int))
    else none

/-- `vote_index._parse_int`: `None` stays `None`, the value is stripped, the
empty string yields `None`, unparsable text yields `None`. -/
def parseIntOpt (value : Option String) : Option Int :=
  match value with
  | none => none
  | some v =>
    let v := pyStrip v
    if v = "" then none else pyInt v

/-- Everything after the first dollar sign (`arg.split("$", 1)[1]`; callers
guard on the `Page$` prefix so a dollar sign is present). -/
def afterFirstDollar (s : String) : String :=
  String.mk ((s.data.dropWhile (fun c => c ≠ '$')).drop 1)

/-- The page number carried by one pager postback argument, if it is a
`Page$N` argument with integral `N` (`arg.startswith("Page$")` checked at the
character level). -/
def pageArgNum (arg : String) : Option Int :=
  if ("Page$").data.isPrefixOf arg.data then parseIntOpt (some (afterFirstDollar arg))
  else none

/-- All page numbers extracted from the pager links of a results page
(the `args` list of `VoteIndexSpider._max_page`). -/
def pagePostbackNums (hrefs : List (Option String)) : List Int :=
  hrefs.filterMap (fun h =>
    match postbackArg h with
    | none => none
    | some arg => pageArgNum arg)

/-- Maximum of a list of integers (`none` on the empty list). -/
def maxIntList : List Int → Option Int
  | [] => none
  | n :: ns => some (match maxIntList ns with | none => n | some m => max n m)

/-- `VoteIndexSpider._max_page`: `max(args) if args else None`. -/
def maxPage (hrefs : List (Option String)) : Option Int :=
  maxIntList (pagePostbackNums hrefs)

/-- `_EVENT_TARGET_GRID`. -/
def EVENT_TARGET_GRID : String := "_sectionLayoutContainer$ctl01$_resultGrid2"

/-- A follow-up postback form submission scheduled by
`_parse_meeting_results`. -/
structure PageRequest where
  eventTarget : String
  eventArgument : String
  page : Int
deriving DecidableEq

/-- The follow-up submissions issued by `_parse_meeting_results` for the page
numbered `page`: one request for page `page + 1` when a pager maximum exists
(and is truthy) and `page < max_page`; none otherwise. -/
def meetingResultFollowUps (hrefs : List (Option String)) (page : Int) :
    List PageRequest :=
  match maxPage hrefs with
  | none => []
  | some mp =>
    if mp ≠ 0 ∧ page < mp then
      [{ eventTarget := EVENT_TARGET_GRID,
         eventArgument := "Page$" ++ toString (page + 1),
         page := page + 1 }]
    else []

theorem maxIntList_le (l : List Int) :
    ∀ n ∈ l, ∀ m, maxIntList l = some m → n ≤ m := by
  induction l with
  | nil => intro n hn; cases hn
  | cons a l ih =>
    intro n hn m hm
    cases h : maxIntList l with
    | none =>
      have hl : l = [] := by
        cases l with
        | nil => rfl
        | cons b t => simp [maxIntList] at h
      subst hl
      simp only [maxIntList, Option.some_inj] at hm
      rcases List.mem_cons.mp hn with rfl | hcon
      · omega
      · cases hcon
    | some k =>
      simp only [maxIntList, h, Option.some_inj] at hm
      rcases List.mem_cons.mp hn with rfl | hn'
      · omega
      · have := ih n hn' k h
        omega

theorem maxIntList_mem (l : List Int) :
    ∀ m, maxIntList l = some m → m ∈ l := by
  induction l with
  | nil => intro m hm; cases hm
  | cons a l ih =>
    intro m hm
    cases h : maxIntList l with
    | none =>
      simp only [maxIntList, h, Option.some_inj] at hm
      exact hm ▸ List.mem_cons_self a l
    | some k =>
      simp only [maxIntList, h, Option.some_inj] at hm
      by_cases hak : a ≤ k
      · have hmax : max a k = k := max_eq_right hak
        subst hm
        rw [hmax]
        exact List.mem_cons_of_mem a (ih k h)
      · have hmax : max a k = a := max_eq_left (le_of_not_le hak)
        subst hm
        rw [hmax]
        exact List.mem_cons_self a l

/-- A pager href whose postback argument is `Page$2`. -/
def c7Page2Href : String :=
  "javascript:__doPostBack(" ++ String.mk [squote] ++ EVENT_TARGET_GRID ++
    String.mk [squote] ++ "," ++ String.mk [squote] ++ "Page$2" ++
    String.mk [squote] ++ ")"

/-- A link with no pager postback. -/
def c7PlainHref : String := "/web/Default.aspx?sid=schodze"

/-- C7: the pager maximum is the maximum of all integers extracted from
`Page$N` postback arguments on the page (no such argument means no maximum,
i.e. page 1 is the only page); a results page whose pager links contain only
`Page$2` causes exactly one follow-up submission with argument `Page$2` when
parsed as page 1, and no follow-up once there is no further pager link or the
current page is already the maximum. -/
theorem c7_pagination :
    (∀ hrefs : List (Option String), maxPage hrefs = none ↔ pagePostbackNums hrefs = []) ∧
    (∀ hrefs : List (Option String), ∀ n ∈ pagePostbackNums hrefs,
      ∀ m, maxPage hrefs = some m → n ≤ m) ∧
    (∀ hrefs : List (Option String), ∀ m, maxPage hrefs = some m →
      m ∈ pagePostbackNums hrefs) ∧
    meetingResultFollowUps [some c7Page2Href] 1 =
      [{ eventTarget := EVENT_TARGET_GRID, eventArgument := "Page$2", page := 2 }] ∧
    meetingResultFollowUps [some c7Page2Href] 2 = [] ∧
    meetingResultFollowUps [some c7PlainHref] 1 = [] := by
  refine ⟨?_, ?_, ?_, by decide, by decide, by decide⟩
  · intro hrefs
    rw [maxPage]
    cases h : pagePostbackNums hrefs with
    | nil => simp [maxIntList]
    | cons a t => simp [maxIntList]
  · intro hrefs n hn m hm
    exact maxIntList_le (pagePostbackNums hrefs) n hn m hm
  · intro hrefs m hm
    exact maxIntList_mem (pagePostbackNums hrefs) m hm

/-- C7 witness: the max-page bound applied to the concrete single-link page. -/
theorem c7_pagination_witness : (2 : Int) ≤ 2 :=
  c7_pagination.2.1 [some c7Page2Href] 2 (by decide) 2 (by decide)

/-! ### Rolling-window overview (`site_data.build_site_data`, lines 409-434)

UTC timestamps are modelled as epoch seconds (`Option Int`): the processed
tables store them as fixed-format ISO-8601 strings with a `+00:00` offset, on
which polars' lexicographic string comparison and `datetime.fromisoformat` /
`isoformat` round-trips agree with instant order, and
`timedelta(days=180)` is `180 * 86400` seconds. -/

/-- A vote-level row as consumed by the rolling-window logic. -/
structure SiteVote where
  vote_id : Int
  vote_datetime_utc : Option Int
deriving DecidableEq

/-- A member-vote row as consumed by the rolling-window logic. -/
structure SiteMpVote where
  vote_id : Int
  mp_id : Option Int
  vote_datetime_utc : Option Int
deriving DecidableEq

/-- The descending `(vote_datetime_utc, vote_id)` sort used for
`term_votes_df`: polars `sort(descending=[True, True])` keeps nulls first
(`nulls_last` defaults to `False`). -/
def voteDescBefore (a b : SiteVote) : Bool :=
  match a.vote_datetime_utc, b.vote_datetime_utc with
  | none, none => decide (b.vote_id ≤ a.vote_id)
  | none, some _ => true
  | some _, none => false
  | some x, some y =>
    if x = y then decide (b.vote_id ≤ a.vote_id) else decide (y < x)

/-- `term_votes_df` after its descending sort. -/
def sortVotesDesc (vs : List SiteVote) : List SiteVote :=
  List.insertionSort (fun a b => voteDescBefore a b = true) vs

/-- The rolling-window lower bound: the first row of the descending sort
provides `latest`; when it is null (or there are no rows) no window is
anchored, otherwise the bound is `latest - 180 days`. -/
def rollingCutoff (vs : List SiteVote) : Option Int :=
  match sortVotesDesc vs with
  | [] => none
  | v :: _ =>
    match v.vote_datetime_utc with
    | none => none
    | some t => some (t - 180 * 86400)

/-- The votes selected into the rolling window
(`term_votes_df.filter(col >= from_str)`; a null timestamp compares as null
and is dropped).  With no anchored window the selection is empty. -/
def windowVotes (vs : List SiteVote) : List SiteVote :=
  match rollingCutoff vs with
  | none => []
  | some c =>
    vs.filter (fun v =>
      match v.vote_datetime_utc with
      | none => false
      | some t => decide (c ≤ t))

/-- The member-vote rows selected into the rolling window
(`term_mp_votes_df.filter(col >= from_str)`). -/
def windowMpVotes (vs : List SiteVote) (rows : List SiteMpVote) :
    List SiteMpVote :=
  match rollingCutoff vs with
  | none => []
  | some c =>
    rows.filter (fun r =>
      match r.vote_datetime_utc with
      | none => false
      | some t => decide (c ≤ t))

/-- The latest non-null UTC timestamp of a term's votes (the claim's anchor:
"the latest vote's UTC timestamp in that term"). -/
def maxNonNullTs (vs : List SiteVote) : Option Int :=
  maxIntList (vs.filterMap (fun v => v.vote_datetime_utc))

/-- The claim's window selection: all votes whose timestamp is at least the
latest non-null timestamp minus 180 days. -/
def claimWindowVotes (vs : List SiteVote) : List SiteVote :=
  match maxNonNullTs vs with
  | none => []
  | some t =>
    vs.filter (fun v =>
      match v.vote_datetime_utc with
      | none => false
      | some u => decide (t - 180 * 86400 ≤ u))

/-- Propositional characterization of the descending comparator. -/
theorem voteDescBefore_iff (a b : SiteVote) :
    voteDescBefore a b = true ↔
      (match a.vote_datetime_utc, b.vote_datetime_utc with
       | none, none => b.vote_id ≤ a.vote_id
       | none, some _ => True
       | some _, none => False
       | some x, some y => y < x ∨ (x = y ∧ b.vote_id ≤ a.vote_id)) := by
  unfold voteDescBefore
  cases a.vote_datetime_utc with
  | none =>
    cases b.vote_datetime_utc with
    | none => simp
    | some y => simp
  | some x =>
    cases b.vote_datetime_utc with
    | none => simp
    | some y =>
      by_cases hxy : x = y
      · subst hxy
        simp
      · simp [hxy]

instance : IsTotal SiteVote (fun a b => voteDescBefore a b = true) := by
  constructor
  intro a b
  rw [voteDescBefore_iff, voteDescBefore_iff]
  cases a.vote_datetime_utc with
  | none =>
    cases b.vote_datetime_utc with
    | none =>
      show b.vote_id ≤ a.vote_id ∨ a.vote_id ≤ b.vote_id
      omega
    | some y => exact Or.inl trivial
  | some x =>
    cases b.vote_datetime_utc with
    | none => exact Or.inr trivial
    | some y =>
      show (y < x ∨ (x = y ∧ b.vote_id ≤ a.vote_id)) ∨
        (x < y ∨ (y = x ∧ a.vote_id ≤ b.vote_id))
      omega

instance : IsTrans SiteVote (fun a b => voteDescBefore a b = true) := by
  constructor
  intro a b c hab hbc
  rw [voteDescBefore_iff] at hab hbc ⊢
  cases ha : a.vote_datetime_utc with
  | none =>
    rw [ha] at hab
    cases hc : c.vote_datetime_utc with
    | some z => exact trivial
    | none =>
      cases hb : b.vote_datetime_utc with
      | none =>
        rw [hb] at hab
        rw [hb, hc] at hbc
        show c.vote_id ≤ a.vote_id
        simp only at hab hbc
        omega
      | some y =>
        rw [hb, hc] at hbc
        exact absurd hbc (by simp)
  | some x =>
    rw [ha] at hab
    cases hb : b.vote_datetime_utc with
    | none =>
      rw [hb] at hab
      exact absurd hab (by simp)
    | some y =>
      rw [hb] at hab hbc
      cases hc : c.vote_datetime_utc with
      | none =>
        rw [hc] at hbc
        exact absurd hbc (by simp)
      | some z =>
        rw [hc] at hbc
        show z < x ∨ (x = z ∧ c.vote_id ≤ a.vote_id)
        simp only at hab hbc
        omega

/-- The two-vote term used by the C9 counterexample: one vote with a
timestamp, one with a null timestamp. -/
def c9SampleVotes : List SiteVote :=
  [{ vote_id := 1, vote_datetime_utc := some 1000 },
   { vote_id := 2, vote_datetime_utc := none }]

/-- C9 counterexample: the term has a vote with a non-null UTC timestamp, so
by the claim the rolling window should select it (its timestamp is within 180
days of the latest non-null timestamp); but polars places nulls first in the
descending sort, `latest` is read from the first sorted row, and the
`isinstance(latest, str)` guard fails, so no window is anchored and the code
selects nothing. -/
theorem c9_counterexample :
    (∃ v ∈ c9SampleVotes, v.vote_datetime_utc ≠ none) ∧
    windowVotes c9SampleVotes = [] ∧
    claimWindowVotes c9SampleVotes =
      [{ vote_id := 1, vote_datetime_utc := some 1000 }] ∧
    windowVotes c9SampleVotes ≠ claimWindowVotes c9SampleVotes := by decide

/-- C9 (amended): for every term all of whose votes carry non-null UTC
timestamps (with at least one vote), the rolling-window variants select
exactly the votes and member-vote rows whose timestamp is at least the latest
vote's UTC timestamp minus 180 days; the bounds are derived only from the
input data (the definitions take no clock), so re-running on unchanged input
reproduces the same selection.  (With any null timestamp present, the
nulls-first descending sort makes the anchor null and the window empty.) -/
theorem c9_rolling_window (vs : List SiteVote) (rows : List SiteMpVote)
    (hne : vs ≠ []) (hall : ∀ v ∈ vs, v.vote_datetime_utc ≠ none) :
    ∀ t, maxNonNullTs vs = some t →
      rollingCutoff vs = some (t - 180 * 86400) ∧
      windowVotes vs = vs.filter (fun v =>
        match v.vote_datetime_utc with
        | none => false
        | some u => decide (t - 180 * 86400 ≤ u)) ∧
      windowMpVotes vs rows = rows.filter (fun r =>
        match r.vote_datetime_utc with
        | none => false
        | some u => decide (t - 180 * 86400 ≤ u)) ∧
      windowVotes vs = claimWindowVotes vs := by
  intro t ht
  have hperm : List.Perm (sortVotesDesc vs) vs :=
    List.perm_insertionSort (fun a b => voteDescBefore a b = true) vs
  have hcut : rollingCutoff vs = some (t - 180 * 86400) := by
    cases hs : sortVotesDesc vs with
    | nil =>
      have h0 : List.Perm ([] : List SiteVote) vs := hs ▸ hperm
      exact absurd h0.symm.eq_nil hne
    | cons v rest =>
      have hv_mem : v ∈ vs :=
        hperm.mem_iff.mp (by rw [hs]; exact List.mem_cons_self v rest)
      cases htv : v.vote_datetime_utc with
      | none => exact absurd htv (hall v hv_mem)
      | some tv =>
        have htv_mem : tv ∈ vs.filterMap (fun v => v.vote_datetime_utc) :=
          List.mem_filterMap.mpr ⟨v, hv_mem, htv⟩
        have h1 : tv ≤ t := maxIntList_le _ tv htv_mem t ht
        have h2 : t ≤ tv := by
          rcases List.mem_filterMap.mp (maxIntList_mem _ t ht) with ⟨u, hu_vs, hut⟩
          have hu_sort : u ∈ v :: rest := by
            rw [← hs]
            exact hperm.mem_iff.mpr hu_vs
          rcases List.mem_cons.mp hu_sort with rfl | hu_rest
          · rw [htv] at hut
            have : tv = t := Option.some_inj.mp hut
            omega
          · have hsorted : List.Sorted (fun a b => voteDescBefore a b = true)
                (v :: rest) := by
              rw [← hs]
              exact List.sorted_insertionSort (fun a b => voteDescBefore a b = true) vs
            have hrel : voteDescBefore v u = true :=
              (List.sorted_cons.mp hsorted).1 u hu_rest
            rw [voteDescBefore_iff] at hrel
            rw [htv, hut] at hrel
            simp only at hrel
            omega
        have heq : tv = t := le_antisymm h1 h2
        subst heq
        simp only [rollingCutoff, hs, htv]
  refine ⟨hcut, ?_, ?_, ?_⟩
  · simp only [windowVotes, hcut]
  · simp only [windowMpVotes, hcut]
  · simp only [windowVotes, claimWindowVotes, hcut, ht]

/-- Concrete term data for the C9 witness. -/
def c9WitnessVotes : List SiteVote :=
  [{ vote_id := 1, vote_datetime_utc := some 1000 },
   { vote_id := 2, vote_datetime_utc := some 2000 }]

/-- Concrete member-vote rows for the C9 witness. -/
def c9WitnessRows : List SiteMpVote :=
  [{ vote_id := 1, mp_id := some 5, vote_datetime_utc := some 1000 },
   { vote_id := 2, mp_id := some 5, vote_datetime_utc := some 2000 }]

/-- C9 witness: the amended window selection on a term whose votes all carry
timestamps. -/
theorem c9_rolling_window_witness :
    rollingCutoff c9WitnessVotes = some (2000 - 180 * 86400) ∧
    windowVotes c9WitnessVotes = c9WitnessVotes.filter (fun v =>
      match v.vote_datetime_utc with
      | none => false
      | some u => decide (2000 - 180 * 86400 ≤ u)) ∧
    windowMpVotes c9WitnessVotes c9WitnessRows = c9WitnessRows.filter (fun r =>
      match r.vote_datetime_utc with
      | none => false
      | some u => decide (2000 - 180 * 86400 ≤ u)) ∧
    windowVotes c9WitnessVotes = claimWindowVotes c9WitnessVotes :=
  c9_rolling_window c9WitnessVotes c9WitnessRows (by decide) (by decide)
    2000 (by decide)

/-! ### Club keys (`site_data.slugify`, `site_data.build_club_keys`) -/

/-- Code-point lexicographic order on character lists: Python's string
comparison, as used by `sorted`. -/
def charListLe : List Char → List Char → Bool
  | [], _ => true
  | _ :: _, [] => false
  | a :: as, b :: bs =>
    if a.toNat < b.toNat then true
    else if b.toNat < a.toNat then false
    else charListLe as bs

/-- Python `a <= b` on strings. -/
def pyStrLe (a b : String) : Bool := charListLe a.data b.data

theorem charListLe_total : ∀ as bs : List Char,
    charListLe as bs = true ∨ charListLe bs as = true := by
  intro as
  induction as with
  | nil => intro bs; exact Or.inl rfl
  | cons a as ih =>
    intro bs
    cases bs with
    | nil => exact Or.inr rfl
    | cons b bs =>
      rcases Nat.lt_trichotomy a.toNat b.toNat with h | h | h
      · exact Or.inl (by simp [charListLe, h])
      · rcases ih bs with hl | hr
        · exact Or.inl (by simp [charListLe, h, Nat.lt_irrefl, hl])
        · exact Or.inr (by simp [charListLe, h, Nat.lt_irrefl, hr])
      · exact Or.inr (by simp [charListLe, h])

theorem charListLe_trans : ∀ as bs cs : List Char,
    charListLe as bs = true → charListLe bs cs = true → charListLe as cs = true := by
  intro as
  induction as with
  | nil => intro bs cs _ _; rfl
  | cons a as ih =>
    intro bs cs hab hbc
    cases bs with
    | nil => simp [charListLe] at hab
    | cons b bs =>
      cases cs with
      | nil => simp [charListLe] at hbc
      | cons c cs =>
        simp only [charListLe] at hab hbc ⊢
        rcases Nat.lt_trichotomy a.toNat b.toNat with h1 | h1 | h1
        · rcases Nat.lt_trichotomy b.toNat c.toNat with h2 | h2 | h2
          · rw [if_pos (by omega)]
          · rw [if_pos (by omega)]
          · rw [if_neg (by omega), if_pos h2] at hbc
            simp at hbc
        · rcases Nat.lt_trichotomy b.toNat c.toNat with h2 | h2 | h2
          · rw [if_pos (by omega)]
          · rw [if_neg (by omega), if_neg (by omega)] at hab
            rw [if_neg (by omega), if_neg (by omega)] at hbc
            rw [if_neg (by omega), if_neg (by omega)]
            exact ih bs cs hab hbc
          · rw [if_neg (by omega), if_pos h2] at hbc
            simp at hbc
        · rw [if_neg (by omega), if_pos h1] at hab
          simp at hab

theorem charListLe_antisymm : ∀ as bs : List Char,
    charListLe as bs = true → charListLe bs as = true → as = bs := by
  intro as
  induction as with
  | nil =>
    intro bs _ hba
    cases bs with
    | nil => rfl
    | cons b bs => simp [charListLe] at hba
  | cons a as ih =>
    intro bs hab hba
    cases bs with
    | nil => simp [charListLe] at hab
    | cons b bs =>
      simp only [charListLe] at hab hba
      rcases Nat.lt_trichotomy a.toNat b.toNat with h | h | h
      · rw [if_neg (by omega), if_pos h] at hba
        simp at hba
      · rw [if_neg (by omega), if_neg (by omega)] at hab
        rw [if_neg (by omega), if_neg (by omega)] at hba
        have hc : a = b := Char.eq_of_val_eq (UInt32.toNat.inj h)
        rw [hc, ih bs hab hba]
      · rw [if_neg (by omega), if_pos h] at hab
        simp at hab

instance : IsTotal String (fun a b => pyStrLe a b = true) :=
  ⟨fun a b => charListLe_total a.data b.data⟩

instance : IsTrans String (fun a b => pyStrLe a b = true) :=
  ⟨fun a b c => charListLe_trans a.data b.data c.data⟩

instance : IsAntisymm String (fun a b => pyStrLe a b = true) := by
  constructor
  intro a b hab hba
  have h := charListLe_antisymm a.data b.data hab hba
  cases a
  cases b
  exact congrArg String.mk h

/-- `unicodedata.normalize("NFKD", ...)` followed by dropping combining marks
and casefolding, modelled per character for the Latin repertoire of the site's
club labels: a diacritic letter decomposes into its base letter plus a
combining mark, so stripping marks and casefolding maps it to the lowercase
base letter. -/
def stripDiacritic (c : Char) : Char :=
  if c ∈ ['á', 'Á', 'ä', 'Ä', 'à', 'À', 'â', 'Â', 'ã', 'Ã'] then 'a'
  else if c ∈ ['č', 'Č', 'ç', 'Ç', 'ć', 'Ć'] then 'c'
  else if c ∈ ['ď', 'Ď'] then 'd'
  else if c ∈ ['é', 'É', 'è', 'È', 'ê', 'Ê', 'ë', 'Ë', 'ě', 'Ě'] then 'e'
  else if c ∈ ['í', 'Í', 'ì', 'Ì', 'î', 'Î', 'ï', 'Ï'] then 'i'
  else if c ∈ ['ĺ', 'Ĺ', 'ľ', 'Ľ'] then 'l'
  else if c ∈ ['ň', 'Ň', 'ń', 'Ń', 'ñ', 'Ñ'] then 'n'
  else if c ∈ ['ó', 'Ó', 'ô', 'Ô', 'ö', 'Ö', 'ò', 'Ò', 'õ', 'Õ'] then 'o'
  else if c ∈ ['ŕ', 'Ŕ', 'ř', 'Ř'] then 'r'
  else if c ∈ ['š', 'Š', 'ś', 'Ś'] then 's'
  else if c ∈ ['ť', 'Ť'] then 't'
  else if c ∈ ['ú', 'Ú', 'ù', 'Ù', 'û', 'Û', 'ü', 'Ü', 'ů', 'Ů'] then 'u'
  else if c ∈ ['ý', 'Ý', 'ÿ'] then 'y'
  else if c ∈ ['ž', 'Ž', 'ź', 'Ź', 'ż', 'Ż'] then 'z'
  else c

/-- NFKD + strip combining + casefold for one character. -/
def foldChar (c : Char) : Char := (stripDiacritic c).toLower

/-- A character kept by `re.sub(r"[^a-z0-9]+", "-", ...)`. -/
def isSlugChar (c : Char) : Bool :=
  (decide ('a' ≤ c) && decide (c ≤ 'z')) || (decide ('0' ≤ c) && decide (c ≤ '9'))

/-- `site_data.slugify`: casefold and strip diacritics, replace each maximal
run of non-alphanumerics with a dash, strip leading/trailing dashes, and fall
back to "unknown" when nothing remains. -/
def slugify (value : String) : String :=
  let folded := value.data.map foldChar
  let runs := splitRuns isSlugChar folded []
  if runs.isEmpty then "unknown"
  else String.intercalate "-" (runs.map (fun cs => String.mk cs))

/-- The base key allocated to a label before collision numbering: the
`_RESERVED_CLUB_KEYS` dict gives fixed keys to the two sentinels, any other
label is slugified, and a slug clashing with a reserved key value gets a
"-2" suffix. -/
def clubKeyBase (label : String) : String :=
  if label = "(no_club)" then "no-club"
  else if label = "(unknown)" then "unknown"
  else
    let key := slugify label
    if key = "no-club" || key = "unknown" then key ++ "-2" else key

/-- Association-list lookup (first match), used for the `used` counters and
the built mapping. -/
def alookup {α : Type} (l : List (String × α)) (k : String) : Option α :=
  (l.find? (fun p => decide (p.1 = k))).map (fun p => p.2)

/-- The fold over the sorted labels in `build_club_keys`: allocate the base
key, bump its use counter, and suffix `-n` on the n-th use (n > 1). -/
def buildClubKeysAux :
    List String → List (String × Nat) → List (String × String) →
      List (String × String)
  | [], _, mapping => mapping
  | label :: rest, used, mapping =>
    let key := clubKeyBase label
    let n := (alookup used key).getD 0 + 1
    let used' := (key, n) :: used
    let finalKey := if n > 1 then key ++ "-" ++ toString n else key
    buildClubKeysAux rest used' (mapping ++ [(label, finalKey)])

/-- `site_data.build_club_keys`: deduplicate the labels, sort them
(Python's code-point order), then allocate keys in order. -/
def build_club_keys (clubs : List String) : List (String × String) :=
  buildClubKeysAux
    (List.insertionSort (fun a b => pyStrLe a b = true) clubs.dedup) [] []

/-- C10 counterexample: on the labels ["a", "a!", "a-2"], the label "a!"
slugifies to "a" (already used by "a") and receives the collision key "a-2",
which coincides with the slug of the distinct label "a-2" — so distinct labels
do not always receive pairwise distinct keys. -/
theorem c10_counterexample :
    alookup (build_club_keys (["a", "a!", "a-2"])) ("a!") = some ("a-2") ∧
    alookup (build_club_keys (["a", "a!", "a-2"])) ("a-2") = some ("a-2") ∧
    ("a!" : String) ≠ "a-2" := by decide

theorem alookup_cons_ne {α : Type} (k : String) (v : α) (l : List (String × α))
    (x : String) (h : k ≠ x) : alookup ((k, v) :: l) x = alookup l x := by
  simp [alookup, List.find?_cons, h]

theorem alookup_append_ne {α : Type} (m : List (String × α)) (l k : String)
    (v : α) (h : l ≠ k) : alookup (m ++ [(l, v)]) k = alookup m k := by
  simp only [alookup, List.find?_append]
  cases hfind : m.find? (fun p => decide (p.1 = k)) with
  | some p => simp
  | none => simp [List.find?, h]

theorem alookup_append_self {α : Type} (m : List (String × α)) (k : String)
    (v : α) (h : alookup m k = none) : alookup (m ++ [(k, v)]) k = some v := by
  simp only [alookup, List.find?_append]
  cases hfind : m.find? (fun p => decide (p.1 = k)) with
  | some p => simp [alookup, hfind] at h
  | none => simp [List.find?]

/-- Labels not in the remaining worklist keep their mapping entry. -/
theorem alookup_buildClubKeysAux_of_not_mem :
    ∀ (l : List String) (used : List (String × Nat))
      (mapping : List (String × String)) (x : String), x ∉ l →
      alookup (buildClubKeysAux l used mapping) x = alookup mapping x := by
  intro l
  induction l with
  | nil => intro used mapping x _; rfl
  | cons label rest ih =>
    intro used mapping x hx
    have hlab : label ≠ x := fun h => hx (h ▸ List.mem_cons_self label rest)
    have hrest : x ∉ rest := fun h => hx (List.mem_cons_of_mem label h)
    simp only [buildClubKeysAux]
    rw [ih _ _ x hrest, alookup_append_ne _ _ _ _ hlab]

/-- The allocation invariant for a reserved label `rl` with fixed key `rk`:
as long as no other label's base key can be `rk` and `rk` is unused so far,
the reserved label ends up mapped to exactly `rk`. -/
theorem buildClubKeysAux_reserved (rl rk : String)
    (hrk : clubKeyBase rl = rk)
    (honly : ∀ label, label ≠ rl → clubKeyBase label ≠ rk) :
    ∀ (l : List String) (used : List (String × Nat))
      (mapping : List (String × String)),
      l.Nodup → rl ∈ l → alookup used rk = none → alookup mapping rl = none →
      alookup (buildClubKeysAux l used mapping) rl = some rk := by
  intro l
  induction l with
  | nil => intro used mapping _ hmem; cases hmem
  | cons label rest ih =>
    intro used mapping hnodup hmem hused hmap
    by_cases heq : label = rl
    · subst heq
      have hnotin : label ∉ rest := (List.nodup_cons.mp hnodup).1
      simp only [buildClubKeysAux, hrk, hused]
      rw [alookup_buildClubKeysAux_of_not_mem rest _ _ label hnotin]
      simp only [Option.getD_none, Nat.zero_add, gt_iff_lt, Nat.lt_irrefl,
        if_false]
      exact alookup_append_self mapping label rk hmap
    · have hmem' : rl ∈ rest := by
        rcases List.mem_cons.mp hmem with h | h
        · exact absurd h.symm heq
        · exact h
      have hkey : clubKeyBase label ≠ rk := honly label heq
      simp only [buildClubKeysAux]
      exact ih ((clubKeyBase label,
          (alookup used (clubKeyBase label)).getD 0 + 1) :: used)
        (mapping ++ [(label,
          if (alookup used (clubKeyBase label)).getD 0 + 1 > 1 then
            clubKeyBase label ++ "-" ++
              toString ((alookup used (clubKeyBase label)).getD 0 + 1)
          else clubKeyBase label)])
        (List.nodup_cons.mp hnodup).2 hmem'
        (by rw [alookup_cons_ne _ _ _ _ hkey]; exact hused)
        (by rw [alookup_append_ne _ _ _ _ heq]; exact hmap)

/-- No label other than "(no_club)" can produce the base key "no-club". -/
theorem clubKeyBase_ne_no_club (label : String) (h : label ≠ "(no_club)") :
    clubKeyBase label ≠ "no-club" := by
  unfold clubKeyBase
  rw [if_neg h]
  by_cases h2 : label = "(unknown)"
  · rw [if_pos h2]
    decide
  · rw [if_neg h2]
    by_cases h3 : (slugify label = "no-club" || slugify label = "unknown") = true
    · rw [if_pos h3]
      rcases Bool.or_eq_true_iff.mp h3 with h4 | h4
      · rw [of_decide_eq_true h4]
        decide
      · rw [of_decide_eq_true h4]
        decide
    · rw [if_neg h3]
      intro hc
      exact h3 (by rw [hc]; decide)

/-- No label other than "(unknown)" can produce the base key "unknown". -/
theorem clubKeyBase_ne_unknown (label : String) (h : label ≠ "(unknown)") :
    clubKeyBase label ≠ "unknown" := by
  unfold clubKeyBase
  by_cases h1 : label = "(no_club)"
  · rw [if_pos h1]
    decide
  · rw [if_neg h1, if_neg h]
    by_cases h3 : (slugify label = "no-club" || slugify label = "unknown") = true
    · rw [if_pos h3]
      rcases Bool.or_eq_true_iff.mp h3 with h4 | h4
      · rw [of_decide_eq_true h4]
        decide
      · rw [of_decide_eq_true h4]
        decide
    · rw [if_neg h3]
      intro hc
      exact h3 (by rw [hc]; decide)

/-- C10 (amended): `build_club_keys` is deterministic and depends only on the
set of labels (not their order or multiplicity), and the reserved sentinel
labels "(no_club)" and "(unknown)" always map to the fixed keys "no-club" and
"unknown".  (Pairwise distinctness of the keys of distinct labels does not
hold in general: a collision "-n" suffix can coincide with another label's
slug, as the counterexample shows.) -/
theorem c10_club_keys (clubs clubs' : List String)
    (hmem : ∀ s : String, s ∈ clubs ↔ s ∈ clubs') :
    build_club_keys clubs = build_club_keys clubs' ∧
    ("(no_club)" ∈ clubs →
      alookup (build_club_keys clubs) ("(no_club)") = some ("no-club")) ∧
    ("(unknown)" ∈ clubs →
      alookup (build_club_keys clubs) ("(unknown)") = some ("unknown")) := by
  refine ⟨?_, ?_, ?_⟩
  · have hperm : List.Perm clubs.dedup clubs'.dedup := by
      rw [List.perm_ext_iff_of_nodup (List.nodup_dedup clubs) (List.nodup_dedup clubs')]
      intro a
      rw [List.mem_dedup, List.mem_dedup]
      exact hmem a
    have hsorted : List.insertionSort (fun a b => pyStrLe a b = true) clubs.dedup =
        List.insertionSort (fun a b => pyStrLe a b = true) clubs'.dedup := by
      exact List.eq_of_perm_of_sorted
        (((List.perm_insertionSort _ _).trans hperm).trans
          (List.perm_insertionSort _ _).symm)
        (List.sorted_insertionSort _ _)
        (List.sorted_insertionSort _ _)
    rw [build_club_keys, build_club_keys, hsorted]
  · intro hin
    apply buildClubKeysAux_reserved ("(no_club)") ("no-club") (by decide)
      clubKeyBase_ne_no_club
    · exact ((List.perm_insertionSort _ _).nodup_iff).mpr (List.nodup_dedup clubs)
    · exact ((List.perm_insertionSort _ _).mem_iff).mpr (List.mem_dedup.mpr hin)
    · rfl
    · rfl
  · intro hin
    apply buildClubKeysAux_reserved ("(unknown)") ("unknown") (by decide)
      clubKeyBase_ne_unknown
    · exact ((List.perm_insertionSort _ _).nodup_iff).mpr (List.nodup_dedup clubs)
    · exact ((List.perm_insertionSort _ _).mem_iff).mpr (List.mem_dedup.mpr hin)
    · rfl
    · rfl

/-- Labels used by the C10 witness. -/
def c10WitnessClubs : List String := ["(no_club)", "(unknown)", "Klub X"]

/-- C10 witness: the reserved keys on a concrete label set. -/
theorem c10_club_keys_witness :
    alookup (build_club_keys c10WitnessClubs) ("(no_club)") = some ("no-club") ∧
    alookup (build_club_keys c10WitnessClubs) ("(unknown)") = some ("unknown") :=
  ⟨(c10_club_keys c10WitnessClubs c10WitnessClubs (fun s => Iff.rfl)).2.1 (by decide),
   (c10_club_keys c10WitnessClubs c10WitnessClubs (fun s => Iff.rfl)).2.2 (by decide)⟩

end NrsrDochadzka
